import Mathlib

/-!
Verification of the hybrid ranking and embedding engine of the career_compass
repository, against its specification.

The engine lives in `server/ml/embeddings.ts` (class `EmbeddingGenerator`) and
in the ranking service module (class `RankingService`).  The embedding below is
a direct translation of those two classes:

* JavaScript numbers are modelled as real numbers (`ℝ`): exact arithmetic in
  place of IEEE doubles.  The only transcendental operations the source uses
  are `Math.log` and `Math.sqrt`, modelled by `Real.log` and `Real.sqrt`.
* Strings are modelled as `List Char`.  A JavaScript string is falsy exactly
  when it is empty, so guards of the form `if (!text)` become `if text = []`.
* `number[]` vectors are `List ℝ`.
* Optional `number` parameters (`resumeExp?`, `jobMinExp?`) are `Option ℝ`;
  the source compares them against `undefined`, which becomes `none`.
* The `throw new Error('Vectors must have the same length')` in
  `cosineSimilarity` is the only exception in the core; fallible operations
  return `Except SimError`.  The callers of `cosineSimilarity` perform no
  catching, so the exception propagates, modelled by matching on the `Except`.
* A JavaScript `Set` is modelled by its set of elements (`List.toFinset`,
  or `List.dedup` where the iteration order of a `Set` built from a list is
  irrelevant to the folded sum being computed).
-/

namespace CareerCompass

/-- Error thrown by `EmbeddingGenerator.cosineSimilarity` when the two input
vectors have different lengths (source message: Vectors must have the same
length). -/
inductive SimError where
  | dimensionMismatch
deriving DecidableEq

/-- The `ScoreComponents` interface returned by
`RankingService.calculateHybridScore`. -/
structure ScoreComponents where
  bm25 : ℝ
  semantic : ℝ
  rule_boost : ℝ
  final : ℝ


namespace EmbeddingGenerator

/-- The loop of `cosineSimilarity` accumulating `dotProduct` (and, applied to a
vector with itself, the squared norms `norm1`, `norm2`): the source iterates
`i` from `0` to `vec1.length - 1` after the length check has ensured both
vectors have the same length, which is exactly the extent of `zipWith`. -/
def dotAcc (vec1 vec2 : List ℝ) : ℝ :=
  (List.zipWith (fun a b => a * b) vec1 vec2).sum

/-- The L2 norm of a vector, `Math.sqrt` of the accumulated sum of squares;
the spec calls this the vector's norm. -/
noncomputable def l2norm (v : List ℝ) : ℝ :=
  Real.sqrt (dotAcc v v)

/-- `EmbeddingGenerator.cosineSimilarity` from `server/ml/embeddings.ts`:
throws when the lengths differ, returns `0` when either accumulated squared
norm is `0`, and otherwise returns the dot product divided by the product of
the square roots of the squared norms. -/
noncomputable def cosineSimilarity (vec1 vec2 : List ℝ) : Except SimError ℝ :=
  if vec1.length ≠ vec2.length then .error .dimensionMismatch
  else
    let dotProduct := dotAcc vec1 vec2
    let norm1 := dotAcc vec1 vec1
    let norm2 := dotAcc vec2 vec2
    if norm1 = 0 ∨ norm2 = 0 then .ok 0
    else .ok (dotProduct / (Real.sqrt norm1 * Real.sqrt norm2))

end EmbeddingGenerator

namespace RankingService

/-- Field initializer `private bm25Weight = 0.4` of class `RankingService`. -/
def bm25Weight : ℝ := 0.4

/-- Field initializer `private semanticWeight = 0.5`. -/
def semanticWeight : ℝ := 0.5

/-- Field initializer `private ruleBoostWeight = 0.1`. -/
def ruleBoostWeight : ℝ := 0.1

/-- The three weight fields of a constructed `RankingService` instance.  The
TypeScript class declares no constructor, so construction takes no arguments
and only runs the field initializers. -/
structure Instance where
  bm25Weight : ℝ
  semanticWeight : ℝ
  ruleBoostWeight : ℝ


/-- `new RankingService()`: the class has only the implicit parameterless
constructor, which runs the field initializers and cannot fail; there is no
validation code and no `ConfigurationError` anywhere in the repository. -/
def construct : Instance :=
  { bm25Weight := bm25Weight
    semanticWeight := semanticWeight
    ruleBoostWeight := ruleBoostWeight }

/-- A word character in the sense of the JavaScript regex class `\w`:
ASCII alphanumeric or underscore. -/
def isWordChar (c : Char) : Bool :=
  c.isAlphanum || c == '_'

/-- A whitespace character in the sense of the JavaScript regex class `\s`:
space, tab, line feed, vertical tab, form feed, carriage return, and the
Unicode space separators, line/paragraph separators and BOM. -/
def isJsSpace (c : Char) : Bool :=
  c == ' ' || c == '\t' || c == '\n' || c == '\r' ||
  c.toNat == 0x0b || c.toNat == 0x0c || c.toNat == 0xa0 || c.toNat == 0x1680 ||
  (decide (0x2000 ≤ c.toNat) && decide (c.toNat ≤ 0x200a)) ||
  c.toNat == 0x2028 || c.toNat == 0x2029 || c.toNat == 0x202f ||
  c.toNat == 0x205f || c.toNat == 0x3000 || c.toNat == 0xfeff

/-- One character of `.replace(/[^\w\s]/g, ' ')`: a character that is neither
a word character nor whitespace is replaced by a space. -/
def replaceNonWord (c : Char) : Char :=
  if isWordChar c || isJsSpace c then c else ' '

/-- Splitting on runs of whitespace, accumulating the current token in
reverse.  `text.split(/\s+/)` also emits an empty leading/trailing field when
the text starts/ends with whitespace (and one empty field for the empty
string); those fields have length `0 ≤ 2` and are discarded by the
`token.length > 2` filter that `tokenize` applies right after the split, so
the split is modelled directly as the list of maximal nonempty runs of
non-whitespace characters. -/
def splitAux : List Char → List Char → List (List Char)
  | [], cur => if cur = [] then [] else [cur.reverse]
  | c :: cs, cur =>
    if isJsSpace c then
      (if cur = [] then [] else [cur.reverse]) ++ splitAux cs []
    else splitAux cs (c :: cur)

/-- `text.split(/\s+/)` as used by `tokenize` (see `splitAux`). -/
def splitOnSpaces (text : List Char) : List (List Char) :=
  splitAux text []

/-- `RankingService.tokenize`: lower-case, replace every character matching
`[^\w\s]` by a space, split on whitespace runs, and keep only tokens of
length greater than 2.  `Char.toLower` models `String.prototype.toLowerCase`
on the ASCII range; a non-ASCII character is left unchanged by it here, and is
then replaced by a space anyway (it is neither `\w` nor, for the characters
`isJsSpace` recognizes, kept as a token character), matching the JavaScript
result. -/
def tokenize (text : List Char) : List (List Char) :=
  (splitOnSpaces ((text.map Char.toLower).map replaceNonWord)).filter
    (fun token => decide (2 < token.length))

/-- `RankingService.getTermFrequency` builds a map from each token to its
number of occurrences; the BM25 code reads it as `freq[term] || 0`, which is
exactly the occurrence count of `term` in the token list. -/
def getTermFrequency (tokens : List (List Char)) (term : List Char) : ℕ :=
  tokens.count term

/-- The body of the loop `for (const term of jobTerms)` in
`calculateBM25Score`, as a function of the accumulator `score` and the
current `term`.  The inner `resumeTermFreq[term] ? 1 : 0` is the truthiness
test of the frequency entry, i.e. whether the count is positive. -/
noncomputable def bm25LoopStep (resumeTokens : List (List Char))
    (k1 b avgDocLength : ℝ) (acc : ℝ) (term : List Char) : ℝ :=
  let tf := getTermFrequency resumeTokens term
  if 0 < tf then
    let idf := Real.log (2 / (1 +
      (if 0 < getTermFrequency resumeTokens term then (1 : ℝ) else 0)))
    let numerator := (tf : ℝ) * (k1 + 1)
    let denominator := (tf : ℝ) +
      k1 * (1 - b + b * ((resumeTokens.length : ℝ) / avgDocLength))
    acc + idf * (numerator / denominator)
  else acc

/-- `RankingService.calculateBM25Score`.  The loop `for (const term of
jobTerms)` iterates over the set of distinct job tokens; the fold is over
`jobTokens.dedup`, whose elements are exactly that set (each distinct token
once), and the accumulated sum does not depend on the iteration order. -/
noncomputable def calculateBM25Score (resumeText jobText : List Char) : ℝ :=
  if resumeText = [] ∨ jobText = [] then 0
  else
    let resumeTokens := tokenize resumeText
    let jobTokens := tokenize jobText
    if resumeTokens.length = 0 ∨ jobTokens.length = 0 then 0
    else
      let k1 : ℝ := 1.5
      let b : ℝ := 0.75
      let avgDocLength : ℝ := ((resumeTokens.length : ℝ) + (jobTokens.length : ℝ)) / 2
      let score : ℝ :=
        jobTokens.dedup.foldl (bm25LoopStep resumeTokens k1 b avgDocLength) 0
      min 1 (score / ((jobTokens.length : ℝ) * 2))

/-- `RankingService.calculateSemanticScore`: returns `0` when either vector is
absent or empty (only emptiness is representable here: a `List ℝ` argument is
never `null`/`undefined`, and an empty array is truthy in JavaScript, so the
`!resumeVec || !jobVec` disjuncts never fire on array inputs), and otherwise
rescales `cosineSimilarity` from `[-1, 1]` to `[0, 1]`; an exception from
`cosineSimilarity` propagates. -/
noncomputable def calculateSemanticScore (resumeVec jobVec : List ℝ) :
    Except SimError ℝ :=
  if resumeVec.length = 0 ∨ jobVec.length = 0 then .ok 0
  else (EmbeddingGenerator.cosineSimilarity resumeVec jobVec).map
    (fun similarity => (similarity + 1) / 2)

/-- `RankingService.jaccardSimilarity`: `1` when both input lists are empty,
`0` when exactly one is, otherwise the size of the intersection of the two
element sets divided by the size of their union. -/
noncomputable def jaccardSimilarity (set1 set2 : List (List Char)) : ℝ :=
  if set1 = [] ∧ set2 = [] then 1
  else if set1 = [] ∨ set2 = [] then 0
  else
    let s1 := set1.toFinset
    let s2 := set2.toFinset
    ((s1 ∩ s2).card : ℝ) / ((s1 ∪ s2).card : ℝ)

/-- `RankingService.calculateExperienceScore`: neutral `0.5` when either value
is `undefined`; `1.0` in the sweet spot `jobMinExp ≤ resumeExp ≤ jobMinExp +
2`; a capped over-qualification penalty above it and a capped deficit penalty
below it. -/
noncomputable def calculateExperienceScore (resumeExp jobMinExp : Option ℝ) : ℝ :=
  match resumeExp, jobMinExp with
  | some re, some je =>
    if je ≤ re then
      if re ≤ je + 2 then 1
      else
        let excess := re - je - 2
        let penalty := min 0.3 (excess * 0.05)
        1 - penalty
    else
      let deficit := je - re
      let penalty := min 0.8 (deficit * 0.2)
      1 - penalty
  | _, _ => 0.5

/-- `RankingService.calculateRuleBoost`: Jaccard similarity of the lower-cased
skill lists, experience score, and location score `1.0`/`0.8`, combined with
fixed weights `0.6`/`0.3`/`0.1`. -/
noncomputable def calculateRuleBoost (resumeSkills jobSkills : List (List Char))
    (resumeExp jobMinExp : Option ℝ) (sameLocation : Bool) : ℝ :=
  let skillsScore := jaccardSimilarity
    (resumeSkills.map (fun s => s.map Char.toLower))
    (jobSkills.map (fun s => s.map Char.toLower))
  let expScore := calculateExperienceScore resumeExp jobMinExp
  let locationScore : ℝ := if sameLocation then 1.0 else 0.8
  0.6 * skillsScore + 0.3 * expScore + 0.1 * locationScore

/-- `RankingService.calculateHybridScore`: BM25 score, semantic score and rule
boost combined by the weight fields, with the final score clamped into
`[0, 1]`.  The BM25 and rule-boost computations are pure and total; the only
exception a call can raise comes from `cosineSimilarity` inside
`calculateSemanticScore` and aborts the whole call, modelled by matching on
its `Except` result. -/
noncomputable def calculateHybridScore (resumeText : List Char)
    (resumeVec : List ℝ) (jobText : List Char) (jobVec : List ℝ)
    (resumeSkills jobSkills : List (List Char))
    (resumeExp jobMinExp : Option ℝ) (sameLocation : Bool) :
    Except SimError ScoreComponents :=
  let bm25Score := calculateBM25Score resumeText jobText
  match calculateSemanticScore resumeVec jobVec with
  | .error e => .error e
  | .ok semanticScore =>
    let ruleBoost := calculateRuleBoost resumeSkills jobSkills
      resumeExp jobMinExp sameLocation
    let finalScore := bm25Weight * bm25Score + semanticWeight * semanticScore +
      ruleBoostWeight * ruleBoost
    .ok { bm25 := bm25Score
          semantic := semanticScore
          rule_boost := ruleBoost
          final := max 0 (min 1 finalScore) }

/-- One term's score exactly as the specification writes it:
`termScore = idf * (tf*(k1+1)) / (tf + k1*(1 - b + b*(candidateLen/avgDocLength)))`
with `idf = ln(2 / (1 + 1))`. -/
noncomputable def bm25ClaimTermScore (candidateTokens : List (List Char))
    (k1 b avgDocLength : ℝ) (term : List Char) : ℝ :=
  let idf : ℝ := Real.log (2 / (1 + 1))
  let tf : ℝ := (candidateTokens.count term : ℝ)
  idf * (tf * (k1 + 1)) /
    (tf + k1 * (1 - b + b * ((candidateTokens.length : ℝ) / avgDocLength)))

/-- The lexical score exactly as the specification describes it (section 4.3):
zero when either text is empty or tokenizes to nothing, and otherwise the sum,
over each unique job token present with positive term frequency in the
candidate term-frequency map, of
`idf * (tf*(k1+1)) / (tf + k1*(1 - b + b*(candidateLen/avgDocLength)))` with
`idf = ln(2/(1+1))`, `k1 = 1.5`, `b = 0.75` and
`avgDocLength = (len(candidateTokens) + len(jobTokens))/2`, normalized as
`min(1, score / (len(jobTokens) * 2))`.  Written from the specification text
to compare against `calculateBM25Score`. -/
noncomputable def bm25ClaimFormula (candidateText jobText : List Char) : ℝ :=
  if candidateText = [] ∨ jobText = [] then 0
  else
    let candidateTokens := tokenize candidateText
    let jobTokens := tokenize jobText
    if candidateTokens.length = 0 ∨ jobTokens.length = 0 then 0
    else
      let k1 : ℝ := 1.5
      let b : ℝ := 0.75
      let avgDocLength : ℝ := ((candidateTokens.length : ℝ) + (jobTokens.length : ℝ)) / 2
      let score : ℝ := (jobTokens.dedup.filter
          (fun term => decide (0 < candidateTokens.count term))).foldl
        (fun acc term => acc + bm25ClaimTermScore candidateTokens k1 b avgDocLength term) 0
      min 1 (score / ((jobTokens.length : ℝ) * 2))

end RankingService

open EmbeddingGenerator RankingService

/-- Folding a function that leaves its accumulator unchanged returns the
initial accumulator. -/
theorem foldl_fixed {α β : Type} (f : α → β → α) (h : ∀ a b, f a b = a) :
    ∀ (l : List β) (a : α), l.foldl f a = a := by
  intro l
  induction l with
  | nil => intro a; rfl
  | cons x xs ih =>
    intro a
    rw [List.foldl_cons, h a x]
    exact ih a

/-- Inside the `tf > 0` branch the truthiness test yields `1`, so the idf
factor is `log (2 / (1 + 1)) = log 1 = 0` and the loop body leaves the score
unchanged. -/
theorem bm25LoopStep_fixed (resumeTokens : List (List Char))
    (k1 b avgDocLength acc : ℝ) (term : List Char) :
    bm25LoopStep resumeTokens k1 b avgDocLength acc term = acc := by
  by_cases h0 : 0 < getTermFrequency resumeTokens term
  · simp only [bm25LoopStep, if_pos h0]
    norm_num [Real.log_one]
  · simp only [bm25LoopStep, if_neg h0]

/-- The source BM25 score is identically zero. -/
theorem calculateBM25Score_eq_zero (resumeText jobText : List Char) :
    calculateBM25Score resumeText jobText = 0 := by
  simp only [calculateBM25Score]
  split
  · rfl
  split
  · rfl
  rw [foldl_fixed _ (fun a t => bm25LoopStep_fixed _ _ _ _ a t), zero_div]
  exact min_eq_right zero_le_one

/-- The specification's term score is zero: its idf factor is
`log (2 / (1 + 1)) = log 1 = 0`. -/
theorem bm25ClaimTermScore_eq_zero (candidateTokens : List (List Char))
    (k1 b avgDocLength : ℝ) (term : List Char) :
    bm25ClaimTermScore candidateTokens k1 b avgDocLength term = 0 := by
  simp only [bm25ClaimTermScore]
  norm_num [Real.log_one]

/-- The specification's BM25 formula is identically zero as well. -/
theorem bm25ClaimFormula_eq_zero (candidateText jobText : List Char) :
    bm25ClaimFormula candidateText jobText = 0 := by
  simp only [bm25ClaimFormula]
  split
  · rfl
  split
  · rfl
  rw [foldl_fixed _ (fun a t => by simp [bm25ClaimTermScore_eq_zero]), zero_div]
  exact min_eq_right zero_le_one

/-- C5: for every pair of input texts (empty or not), `calculateBM25Score`
returns exactly 0: inside the `tf > 0` branch the idf factor evaluates to
`log (2 / (1 + 1)) = log 1 = 0`, so every accumulated term score is 0 and the
normalized result `min (1, 0 / (len(jobTokens) * 2))` is 0 — the lexical
signal never contributes to the hybrid score. -/
theorem C5_bm25_always_zero (resumeText jobText : List Char) :
    calculateBM25Score resumeText jobText = 0 :=
  calculateBM25Score_eq_zero resumeText jobText

/-- C4: `calculateBM25Score` returns 0 whenever either input text is empty or
tokenizes to zero tokens; otherwise it accumulates, over each unique job
token present with `tf > 0` in the candidate term-frequency map, the term
score `idf * (tf*(k1+1)) / (tf + k1*(1 - b + b*(candidateLen/avgDocLength)))`
with `k1 = 1.5`, `b = 0.75`,
`avgDocLength = (len(candidateTokens) + len(jobTokens)) / 2`, and returns
`min(1, score / (len(jobTokens) * 2))` — stated as equality with
`bm25ClaimFormula`, the specification's formula. -/
theorem C4_bm25_matches_spec_formula (resumeText jobText : List Char) :
    ((resumeText = [] ∨ jobText = [] ∨
        tokenize resumeText = [] ∨ tokenize jobText = []) →
      calculateBM25Score resumeText jobText = 0) ∧
    calculateBM25Score resumeText jobText = bm25ClaimFormula resumeText jobText := by
  constructor
  · intro _
    exact calculateBM25Score_eq_zero _ _
  · rw [calculateBM25Score_eq_zero, bm25ClaimFormula_eq_zero]

/-- Witness for C4 at the empty pair of texts. -/
theorem C4_witness :
    (([] : List Char) = [] ∨ ([] : List Char) = [] ∨
      tokenize [] = [] ∨ tokenize [] = []) ∧
    calculateBM25Score [] [] = 0 :=
  ⟨Or.inl rfl, (C4_bm25_matches_spec_formula [] []).1 (Or.inl rfl)⟩

/-- C6: the experience component equals 0.5 when either value is absent; 1.0
in the sweet spot `jobMinExp ≤ candidateExp ≤ jobMinExp + 2`;
`1 - min(0.3, (candidateExp - jobMinExp - 2)*0.05)` above it;
`1 - min(0.8, (jobMinExp - candidateExp)*0.2)` below it; and in particular
with `jobMinExp = 3`: `candidateExp = 4` gives 1.0, `candidateExp = 10` gives
0.75, `candidateExp = 1` gives 0.6. -/
theorem C6_experience_score :
    (∀ jobMinExp : Option ℝ, calculateExperienceScore none jobMinExp = 0.5) ∧
    (∀ resumeExp : Option ℝ, calculateExperienceScore resumeExp none = 0.5) ∧
    (∀ candidateExp jobMinExp : ℝ,
      (jobMinExp ≤ candidateExp → candidateExp ≤ jobMinExp + 2 →
        calculateExperienceScore (some candidateExp) (some jobMinExp) = 1) ∧
      (jobMinExp + 2 < candidateExp →
        calculateExperienceScore (some candidateExp) (some jobMinExp) =
          1 - min 0.3 ((candidateExp - jobMinExp - 2) * 0.05)) ∧
      (candidateExp < jobMinExp →
        calculateExperienceScore (some candidateExp) (some jobMinExp) =
          1 - min 0.8 ((jobMinExp - candidateExp) * 0.2))) ∧
    calculateExperienceScore (some 4) (some 3) = 1 ∧
    calculateExperienceScore (some 10) (some 3) = 0.75 ∧
    calculateExperienceScore (some 1) (some 3) = 0.6 := by
  refine ⟨fun je => by cases je <;> rfl, fun re => by cases re <;> rfl,
    fun ce je => ⟨fun h1 h2 => ?_, fun h => ?_, fun h => ?_⟩, ?_, ?_, ?_⟩
  · simp only [calculateExperienceScore]
    rw [if_pos h1, if_pos h2]
  · simp only [calculateExperienceScore]
    rw [if_pos (by linarith), if_neg (by linarith)]
  · simp only [calculateExperienceScore]
    rw [if_neg (by linarith)]
  · norm_num [calculateExperienceScore]
  · simp only [calculateExperienceScore]
    rw [if_pos (by norm_num), if_neg (by norm_num)]
    rw [show ((10:ℝ) - 3 - 2) * 0.05 = 0.25 by norm_num,
      min_eq_right (by norm_num)]
    norm_num
  · simp only [calculateExperienceScore]
    rw [if_neg (by norm_num)]
    rw [show ((3:ℝ) - 1) * 0.2 = 0.4 by norm_num, min_eq_right (by norm_num)]
    norm_num

/-- Witness for C6 in the sweet-spot case, at `candidateExp = 4`,
`jobMinExp = 3`. -/
theorem C6_witness :
    (3:ℝ) ≤ 4 ∧ (4:ℝ) ≤ 3 + 2 ∧
    calculateExperienceScore (some 4) (some 3) = 1 :=
  ⟨by norm_num, by norm_num,
    (C6_experience_score.2.2.1 4 3).1 (by norm_num) (by norm_num)⟩

/-- C7: `calculateRuleBoost` returns
`0.6*skillScore + 0.3*expScore + 0.1*locationScore` where `skillScore` is the
Jaccard similarity of the lower-cased skill lists (1.0 when both are empty,
0.0 when exactly one is), and `locationScore` is 1.0 when `sameLocation` is
true and 0.8 otherwise. -/
theorem C7_rule_boost_formula (resumeSkills jobSkills : List (List Char))
    (resumeExp jobMinExp : Option ℝ) (sameLocation : Bool) :
    calculateRuleBoost resumeSkills jobSkills resumeExp jobMinExp sameLocation =
      0.6 * jaccardSimilarity (resumeSkills.map (fun s => s.map Char.toLower))
          (jobSkills.map (fun s => s.map Char.toLower)) +
        0.3 * calculateExperienceScore resumeExp jobMinExp +
        0.1 * (if sameLocation then 1.0 else 0.8) ∧
    (resumeSkills = [] → jobSkills = [] →
      jaccardSimilarity (resumeSkills.map (fun s => s.map Char.toLower))
        (jobSkills.map (fun s => s.map Char.toLower)) = 1) ∧
    (resumeSkills = [] → jobSkills ≠ [] →
      jaccardSimilarity (resumeSkills.map (fun s => s.map Char.toLower))
        (jobSkills.map (fun s => s.map Char.toLower)) = 0) ∧
    (resumeSkills ≠ [] → jobSkills = [] →
      jaccardSimilarity (resumeSkills.map (fun s => s.map Char.toLower))
        (jobSkills.map (fun s => s.map Char.toLower)) = 0) := by
  refine ⟨rfl, fun h1 h2 => ?_, fun h1 h2 => ?_, fun h1 h2 => ?_⟩
  · subst h1; subst h2
    simp [jaccardSimilarity]
  · subst h1
    rw [jaccardSimilarity, if_neg (by simp [h2]), if_pos (by simp)]
  · subst h2
    rw [jaccardSimilarity, if_neg (by simp [h1]), if_pos (by simp)]

/-- Witness for C7 at empty resume skills and one job skill. -/
theorem C7_witness :
    (([] : List (List Char)) = []) ∧ ([['x']] : List (List Char)) ≠ [] ∧
    jaccardSimilarity (([] : List (List Char)).map (fun s => s.map Char.toLower))
      (([['x']] : List (List Char)).map (fun s => s.map Char.toLower)) = 0 :=
  ⟨rfl, by simp,
    (C7_rule_boost_formula [] [['x']] none none false).2.2.1 rfl (by simp)⟩

/-- The Jaccard similarity always lies in `[0, 1]`. -/
theorem jaccardSimilarity_bounds (set1 set2 : List (List Char)) :
    0 ≤ jaccardSimilarity set1 set2 ∧ jaccardSimilarity set1 set2 ≤ 1 := by
  simp only [jaccardSimilarity]
  split
  · norm_num
  split
  · norm_num
  constructor
  · exact div_nonneg (Nat.cast_nonneg _) (Nat.cast_nonneg _)
  · apply div_le_one_of_le₀
    · exact_mod_cast Finset.card_le_card (Finset.inter_subset_union)
    · exact Nat.cast_nonneg _

/-- The experience score always lies in `[0, 1]`. -/
theorem calculateExperienceScore_bounds (resumeExp jobMinExp : Option ℝ) :
    0 ≤ calculateExperienceScore resumeExp jobMinExp ∧
    calculateExperienceScore resumeExp jobMinExp ≤ 1 := by
  cases resumeExp with
  | none => cases jobMinExp <;> norm_num [calculateExperienceScore]
  | some re =>
    cases jobMinExp with
    | none => norm_num [calculateExperienceScore]
    | some je =>
      simp only [calculateExperienceScore]
      split_ifs with h1 h2
      · norm_num
      · have hx : (0:ℝ) ≤ (re - je - 2) * 0.05 := by nlinarith
        have hp0 : (0:ℝ) ≤ min 0.3 ((re - je - 2) * 0.05) :=
          le_min (by norm_num) hx
        have hp1 : min (0.3:ℝ) ((re - je - 2) * 0.05) ≤ 0.3 := min_le_left _ _
        constructor <;> linarith
      · have hx : (0:ℝ) ≤ (je - re) * 0.2 := by nlinarith
        have hp0 : (0:ℝ) ≤ min 0.8 ((je - re) * 0.2) :=
          le_min (by norm_num) hx
        have hp1 : min (0.8:ℝ) ((je - re) * 0.2) ≤ 0.8 := min_le_left _ _
        constructor <;> linarith

/-- The rule boost always lies in `[0, 1]`. -/
theorem calculateRuleBoost_bounds (resumeSkills jobSkills : List (List Char))
    (resumeExp jobMinExp : Option ℝ) (sameLocation : Bool) :
    0 ≤ calculateRuleBoost resumeSkills jobSkills resumeExp jobMinExp sameLocation ∧
    calculateRuleBoost resumeSkills jobSkills resumeExp jobMinExp sameLocation ≤ 1 := by
  have hj := jaccardSimilarity_bounds
    (resumeSkills.map (fun s => s.map Char.toLower))
    (jobSkills.map (fun s => s.map Char.toLower))
  have he := calculateExperienceScore_bounds resumeExp jobMinExp
  simp only [calculateRuleBoost]
  cases sameLocation <;>
    · norm_num
      constructor <;> linarith [hj.1, hj.2, he.1, he.2]

/-- C3: for all valid inputs the lexical score lies in `[0, 1]`, the rule
boost lies in `[0, 1]`, and the `final` field of every `ScoreComponents`
returned by `calculateHybridScore` lies in `[0, 1]`. -/
theorem C3_range_invariant :
    (∀ resumeText jobText : List Char,
      0 ≤ calculateBM25Score resumeText jobText ∧
      calculateBM25Score resumeText jobText ≤ 1) ∧
    (∀ (resumeSkills jobSkills : List (List Char)) (resumeExp jobMinExp : Option ℝ)
      (sameLocation : Bool),
      0 ≤ calculateRuleBoost resumeSkills jobSkills resumeExp jobMinExp sameLocation ∧
      calculateRuleBoost resumeSkills jobSkills resumeExp jobMinExp sameLocation ≤ 1) ∧
    (∀ (resumeText : List Char) (resumeVec : List ℝ) (jobText : List Char)
      (jobVec : List ℝ) (resumeSkills jobSkills : List (List Char))
      (resumeExp jobMinExp : Option ℝ) (sameLocation : Bool)
      (comps : ScoreComponents),
      calculateHybridScore resumeText resumeVec jobText jobVec resumeSkills
        jobSkills resumeExp jobMinExp sameLocation = .ok comps →
      0 ≤ comps.final ∧ comps.final ≤ 1) := by
  refine ⟨fun rt jt => ?_, calculateRuleBoost_bounds, ?_⟩
  · rw [calculateBM25Score_eq_zero]
    norm_num
  · intro rt rv jt jv rs js re je loc comps h
    simp only [calculateHybridScore] at h
    rcases hsem : calculateSemanticScore rv jv with e | s <;> rw [hsem] at h
    · exact absurd h (by simp)
    · simp only [Except.ok.injEq] at h
      subst h
      exact ⟨le_max_left 0 _, max_le (by norm_num) (min_le_left _ _)⟩

/-- Witness for C3 at a concrete hybrid-score call on empty inputs. -/
theorem C3_witness :
    calculateHybridScore [] [] [] [] [] [] none none false =
      .ok ⟨0, 0, 83/100, 83/1000⟩ ∧
    0 ≤ (ScoreComponents.mk 0 0 (83/100) (83/1000)).final ∧
    (ScoreComponents.mk 0 0 (83/100) (83/1000)).final ≤ 1 := by
  have heval : calculateHybridScore [] [] [] [] [] [] none none false =
      .ok ⟨0, 0, 83/100, 83/1000⟩ := by
    simp only [calculateHybridScore, calculateSemanticScore, List.length_nil,
      or_self, if_pos, ite_true]
    norm_num [calculateBM25Score_eq_zero, calculateRuleBoost, jaccardSimilarity,
      calculateExperienceScore, bm25Weight, semanticWeight, ruleBoostWeight,
      min_def, max_def, ScoreComponents.mk.injEq]
  exact ⟨heval, C3_range_invariant.2.2 [] [] [] [] [] [] none none false _ heval⟩

/-- A vector's accumulated sum of squares is nonnegative. -/
theorem dotAcc_self_nonneg (v : List ℝ) : 0 ≤ dotAcc v v := by
  induction v with
  | nil => simp [dotAcc]
  | cons x xs ih =>
    simp only [dotAcc, List.zipWith_cons_cons, List.sum_cons] at *
    nlinarith [mul_self_nonneg x]

/-- C8: on equal-length vectors, `cosineSimilarity` returns 0 when either
vector has zero L2 norm (a defined result, not an error), and otherwise the
dot product divided by the product of the two L2 norms. -/
theorem C8_cosine_similarity (a b : List ℝ) (h : a.length = b.length) :
    cosineSimilarity a b =
      .ok (if l2norm a = 0 ∨ l2norm b = 0 then 0
           else dotAcc a b / (l2norm a * l2norm b)) := by
  simp only [cosineSimilarity, l2norm]
  rw [if_neg (by simp [h])]
  simp only [Real.sqrt_eq_zero (dotAcc_self_nonneg a),
    Real.sqrt_eq_zero (dotAcc_self_nonneg b)]
  by_cases h0 : dotAcc a a = 0 ∨ dotAcc b b = 0
  · rw [if_pos h0, if_pos h0]
  · rw [if_neg h0, if_neg h0]

/-- Witness for C8 at the one-dimensional unit vectors. -/
theorem C8_witness :
    ([(1:ℝ)].length = [(1:ℝ)].length) ∧
    cosineSimilarity [(1:ℝ)] [(1:ℝ)] =
      .ok (if l2norm [(1:ℝ)] = 0 ∨ l2norm [(1:ℝ)] = 0 then 0
           else dotAcc [(1:ℝ)] [(1:ℝ)] / (l2norm [(1:ℝ)] * l2norm [(1:ℝ)])) :=
  ⟨rfl, C8_cosine_similarity [1] [1] rfl⟩

/-- `calculateHybridScore` on empty texts and skill lists, absent experience
values and `sameLocation = false` returns the components
`⟨0, 0, 0.83, 0.083⟩` whenever at least one of the two vectors is empty: the
semantic score then short-circuits to 0 without consulting
`cosineSimilarity`. -/
theorem hybrid_empty_vec_eval (resumeVec jobVec : List ℝ)
    (h : resumeVec.length = 0 ∨ jobVec.length = 0) :
    calculateHybridScore [] resumeVec [] jobVec [] [] none none false =
      .ok ⟨0, 0, 83/100, 83/1000⟩ := by
  have hsem : calculateSemanticScore resumeVec jobVec = .ok 0 := by
    rw [calculateSemanticScore, if_pos h]
  simp only [calculateHybridScore, hsem]
  norm_num [calculateBM25Score_eq_zero, calculateRuleBoost, jaccardSimilarity,
    calculateExperienceScore, bm25Weight, semanticWeight, ruleBoostWeight,
    min_def, max_def, ScoreComponents.mk.injEq]

/-- Counterexample to C1 as stated: on the pair of empty (hence equal-length)
vectors the similarity call succeeds with value 0, but the returned
`semantic` field is 0, not `(0 + 1) / 2`. -/
theorem C1_counterexample :
    cosineSimilarity ([] : List ℝ) [] = .ok 0 ∧
    calculateHybridScore [] ([] : List ℝ) [] ([] : List ℝ) [] [] none none false =
      .ok ⟨0, 0, 83/100, 83/1000⟩ ∧
    (0 : ℝ) ≠ (0 + 1) / 2 := by
  refine ⟨?_, hybrid_empty_vec_eval [] [] (Or.inl rfl), by norm_num⟩
  simp [cosineSimilarity, dotAcc]

/-- C1 (amended): on every input on which the similarity call succeeds and
both embedding vectors are nonempty, `calculateHybridScore` returns
`ScoreComponents` whose `semantic` field is `(similarity + 1) / 2` and whose
`final` field is `clamp(0.4*bm25 + 0.5*semantic + 0.1*rule_boost, 0, 1)`,
`bm25` and `rule_boost` being the other two returned fields.  (When either
vector is empty the `semantic` field is 0 instead.) -/
theorem C1_hybrid_formula (resumeText : List Char) (resumeVec : List ℝ)
    (jobText : List Char) (jobVec : List ℝ)
    (resumeSkills jobSkills : List (List Char))
    (resumeExp jobMinExp : Option ℝ) (sameLocation : Bool) (s : ℝ)
    (hs : cosineSimilarity resumeVec jobVec = .ok s)
    (h1 : resumeVec ≠ []) (h2 : jobVec ≠ []) :
    calculateHybridScore resumeText resumeVec jobText jobVec resumeSkills
      jobSkills resumeExp jobMinExp sameLocation =
      .ok { bm25 := calculateBM25Score resumeText jobText
            semantic := (s + 1) / 2
            rule_boost := calculateRuleBoost resumeSkills jobSkills resumeExp
              jobMinExp sameLocation
            final := max 0 (min 1 (0.4 * calculateBM25Score resumeText jobText +
              0.5 * ((s + 1) / 2) +
              0.1 * calculateRuleBoost resumeSkills jobSkills resumeExp
                jobMinExp sameLocation)) } := by
  have hsem : calculateSemanticScore resumeVec jobVec = .ok ((s + 1) / 2) := by
    rw [calculateSemanticScore, if_neg (by simp [List.length_eq_zero, h1, h2]), hs]
    rfl
  simp only [calculateHybridScore, hsem, bm25Weight, semanticWeight, ruleBoostWeight]

/-- Witness for C1 at one-dimensional unit vectors and otherwise empty
inputs. -/
theorem C1_witness :
    cosineSimilarity [(1:ℝ)] [(1:ℝ)] = .ok 1 ∧ ([(1:ℝ)] ≠ []) ∧
    calculateHybridScore [] [(1:ℝ)] [] [(1:ℝ)] [] [] none none false =
      .ok { bm25 := calculateBM25Score [] []
            semantic := ((1:ℝ) + 1) / 2
            rule_boost := calculateRuleBoost [] [] none none false
            final := max 0 (min 1 (0.4 * calculateBM25Score [] [] +
              0.5 * (((1:ℝ) + 1) / 2) +
              0.1 * calculateRuleBoost [] [] none none false)) } := by
  have hc : cosineSimilarity [(1:ℝ)] [(1:ℝ)] = .ok 1 := by
    rw [cosineSimilarity, if_neg (by simp)]
    rw [if_neg (by norm_num [dotAcc])]
    norm_num [dotAcc, Real.sqrt_one]
  exact ⟨hc, by simp,
    C1_hybrid_formula [] [1] [] [1] [] [] none none false 1 hc (by simp) (by simp)⟩

/-- Counterexample to C2 as stated: the vectors `[]` and `[1]` have different
lengths, yet `calculateHybridScore` does not propagate a `DimensionMismatch`:
the empty-vector guard in `calculateSemanticScore` fires first and a score is
returned. -/
theorem C2_counterexample :
    (([] : List ℝ).length ≠ [(1:ℝ)].length) ∧
    calculateHybridScore [] ([] : List ℝ) [] [(1:ℝ)] [] [] none none false =
      .ok ⟨0, 0, 83/100, 83/1000⟩ :=
  ⟨by simp, hybrid_empty_vec_eval [] [1] (Or.inl rfl)⟩

/-- C2 (amended): `cosineSimilarity` fails with `DimensionMismatch` on every
pair of vectors of different lengths (it never truncates or pads), and
`calculateHybridScore` propagates that same error unchanged whenever both
vectors are nonempty; when either vector is empty the semantic score
short-circuits to 0 and a score is returned instead. -/
theorem C2_dimension_mismatch (resumeText : List Char) (resumeVec : List ℝ)
    (jobText : List Char) (jobVec : List ℝ)
    (resumeSkills jobSkills : List (List Char))
    (resumeExp jobMinExp : Option ℝ) (sameLocation : Bool) :
    (∀ a b : List ℝ, a.length ≠ b.length →
      cosineSimilarity a b = .error .dimensionMismatch) ∧
    (resumeVec ≠ [] → jobVec ≠ [] → resumeVec.length ≠ jobVec.length →
      calculateHybridScore resumeText resumeVec jobText jobVec resumeSkills
        jobSkills resumeExp jobMinExp sameLocation = .error .dimensionMismatch) := by
  constructor
  · intro a b h
    rw [cosineSimilarity, if_pos h]
  · intro h1 h2 hlen
    have hsem : calculateSemanticScore resumeVec jobVec =
        .error .dimensionMismatch := by
      rw [calculateSemanticScore, if_neg (by simp [List.length_eq_zero, h1, h2]),
        cosineSimilarity, if_pos hlen]
      rfl
    simp only [calculateHybridScore, hsem]

/-- Witness for C2 at the vectors `[1]` and `[1, 2]`. -/
theorem C2_witness :
    ([(1:ℝ)].length ≠ [(1:ℝ), 2].length) ∧
    cosineSimilarity [(1:ℝ)] [(1:ℝ), 2] = .error .dimensionMismatch ∧
    calculateHybridScore [] [(1:ℝ)] [] [(1:ℝ), 2] [] [] none none false =
      .error .dimensionMismatch :=
  ⟨by simp,
    (C2_dimension_mismatch [] [1] [] [1, 2] [] [] none none false).1 _ _ (by simp),
    (C2_dimension_mismatch [] [1] [] [1, 2] [] [] none none false).2
      (by simp) (by simp) (by simp)⟩

/-- C9 (code side): the `RankingService` class declares no constructor and no
weight parameters: the only construction path runs the field initializers,
always succeeds, and hard-codes the weights 0.4 / 0.5 / 0.1 (which sum to 1).
No weight validation and no `ConfigurationError` exist anywhere in the
repository, so a construction attempt with weights 0.4 / 0.4 / 0.1 cannot
even be expressed against the code, let alone fail. -/
theorem C9_construction_never_validates :
    construct = { bm25Weight := (0.4 : ℝ), semanticWeight := 0.5,
                  ruleBoostWeight := 0.1 } ∧
    construct.bm25Weight + construct.semanticWeight + construct.ruleBoostWeight = 1 := by
  refine ⟨rfl, ?_⟩
  norm_num [construct, bm25Weight, semanticWeight, ruleBoostWeight]

/-- A character whose code is outside the ASCII uppercase range 65..90 is not
uppercase. -/
theorem isUpper_false_of_code (c : Char) (h : ¬(65 ≤ c.toNat ∧ c.toNat ≤ 90)) :
    c.isUpper = false := by
  have hne : ¬(c.isUpper = true) := by
    intro hu
    exact h (by simpa [Char.isUpper] using hu)
  simpa using hne

/-- Shifting an ASCII uppercase code by 32 lands on the code of the
corresponding lowercase character. -/
theorem ofNat_upper_shift (n : ℕ) (h1 : 65 ≤ n) (h2 : n ≤ 90) :
    (Char.ofNat (n + 32)).toNat = n + 32 := by
  interval_cases n <;> decide

/-- Lower-casing never produces an ASCII uppercase character. -/
theorem toLower_isUpper_false (c : Char) : (Char.toLower c).isUpper = false := by
  show (if c.toNat ≥ 65 ∧ c.toNat ≤ 90 then Char.ofNat (c.toNat + 32)
        else c).isUpper = false
  by_cases h : c.toNat ≥ 65 ∧ c.toNat ≤ 90
  · rw [if_pos h]
    apply isUpper_false_of_code
    rw [ofNat_upper_shift c.toNat h.1 h.2]
    omega
  · rw [if_neg h]
    exact isUpper_false_of_code c h

/-- Every character of every chunk produced by `splitAux` is a
non-whitespace character of the accumulator or of the input. -/
theorem splitAux_chars (l : List Char) :
    ∀ (cur : List Char), (∀ c ∈ cur, isJsSpace c = false) →
      ∀ t ∈ splitAux l cur, ∀ c ∈ t, isJsSpace c = false ∧ (c ∈ cur ∨ c ∈ l) := by
  induction l with
  | nil =>
    intro cur hcur t ht c hc
    simp only [splitAux] at ht
    by_cases h : cur = []
    · rw [if_pos h] at ht
      exact absurd ht (List.not_mem_nil t)
    · rw [if_neg h] at ht
      rcases List.mem_singleton.mp ht with rfl
      have hc2 : c ∈ cur := List.mem_reverse.mp hc
      exact ⟨hcur c hc2, Or.inl hc2⟩
  | cons x xs ih =>
    intro cur hcur t ht c hc
    simp only [splitAux] at ht
    by_cases hx : isJsSpace x
    · rw [if_pos hx] at ht
      rcases List.mem_append.mp ht with h1 | h2
      · by_cases h : cur = []
        · rw [if_pos h] at h1
          exact absurd h1 (List.not_mem_nil t)
        · rw [if_neg h] at h1
          rcases List.mem_singleton.mp h1 with rfl
          have hc2 : c ∈ cur := List.mem_reverse.mp hc
          exact ⟨hcur c hc2, Or.inl hc2⟩
      · have hres := ih [] (by intro d hd; exact absurd hd (List.not_mem_nil d))
          t h2 c hc
        rcases hres with ⟨hsp, hmem | hmem⟩
        · exact absurd hmem (List.not_mem_nil c)
        · exact ⟨hsp, Or.inr (List.mem_cons_of_mem x hmem)⟩
    · rw [if_neg hx] at ht
      have hcur2 : ∀ d ∈ x :: cur, isJsSpace d = false := by
        intro d hd
        rcases List.mem_cons.mp hd with rfl | hd2
        · exact Bool.eq_false_iff.mpr hx
        · exact hcur d hd2
      have hres := ih (x :: cur) hcur2 t ht c hc
      rcases hres with ⟨hsp, hmem | hmem⟩
      · rcases List.mem_cons.mp hmem with hceq | hmem2
        · exact ⟨hsp, Or.inr (List.mem_cons.mpr (Or.inl hceq))⟩
        · exact ⟨hsp, Or.inl hmem2⟩
      · exact ⟨hsp, Or.inr (List.mem_cons_of_mem x hmem)⟩

/-- A non-whitespace output of `replaceNonWord` is a word character. -/
theorem replaceNonWord_word (c : Char)
    (h : isJsSpace (replaceNonWord c) = false) :
    isWordChar (replaceNonWord c) = true := by
  rw [replaceNonWord] at h ⊢
  by_cases hw : (isWordChar c || isJsSpace c) = true
  · rw [if_pos hw] at h ⊢
    rcases (by simpa using hw : isWordChar c = true ∨ isJsSpace c = true) with h1 | h2
    · exact h1
    · rw [h2] at h
      exact absurd h (by simp)
  · rw [if_neg hw] at h
    exact absurd h (by decide)

/-- The replacement step applied after lower-casing never yields an ASCII
uppercase character. -/
theorem replaceNonWord_toLower_not_upper (c0 : Char) :
    (replaceNonWord (Char.toLower c0)).isUpper = false := by
  rw [replaceNonWord]
  split
  · exact toLower_isUpper_false c0
  · decide

/-- C10 (amended): `tokenize` lower-cases the text, replaces every character
that is neither a word character (alphanumeric or underscore) nor whitespace
with a space, splits on whitespace runs, and drops every token of length
at most 2, so every token in the output is a lower-cased string of length
greater than 2 containing only word characters — alphanumerics or
underscores, underscores being the one deviation from the claim as stated;
empty input yields an empty sequence rather than an error. -/
theorem C10_tokenize :
    tokenize [] = [] ∧
    ∀ (text : List Char), ∀ t ∈ tokenize text,
      2 < t.length ∧ ∀ c ∈ t, isWordChar c = true ∧ c.isUpper = false := by
  constructor
  · rfl
  intro text t ht
  have hf := List.mem_filter.mp ht
  have hf1 : t ∈ splitAux ((text.map Char.toLower).map replaceNonWord) [] := hf.1
  refine ⟨by simpa using hf.2, ?_⟩
  intro c hc
  have hchars := splitAux_chars _ []
    (by intro d hd; exact absurd hd (List.not_mem_nil d)) t hf1 c hc
  rcases hchars with ⟨hsp, hmem | hmem⟩
  · exact absurd hmem (List.not_mem_nil c)
  · rcases List.mem_map.mp hmem with ⟨d, hd, rfl⟩
    rcases List.mem_map.mp hd with ⟨c0, hc0, rfl⟩
    exact ⟨replaceNonWord_word _ hsp, replaceNonWord_toLower_not_upper c0⟩

/-- Counterexample to C10 as stated: the underscore survives tokenization
(the JavaScript class `\w` includes it), so a token may contain a character
that is neither alphanumeric nor whitespace. -/
theorem C10_counterexample :
    tokenize ['f', 'o', 'o', '_', 'b', 'a', 'r'] =
      [['f', 'o', 'o', '_', 'b', 'a', 'r']] ∧
    '_' ∈ (['f', 'o', 'o', '_', 'b', 'a', 'r'] : List Char) ∧
    Char.isAlphanum '_' = false ∧ isJsSpace '_' = false := by
  decide

/-- Witness for C10 at the text abc. -/
theorem C10_witness :
    ((['a', 'b', 'c'] : List Char) ∈ tokenize ['a', 'b', 'c']) ∧
    (2 < (['a', 'b', 'c'] : List Char).length ∧
      ∀ c ∈ (['a', 'b', 'c'] : List Char),
        isWordChar c = true ∧ c.isUpper = false) :=
  ⟨by decide, C10_tokenize.2 ['a', 'b', 'c'] ['a', 'b', 'c'] (by decide)⟩

end CareerCompass
